import Mathlib

/-
Verification of the column-data resolution and response-assembly pipeline of
django-datatable-view (file datatableview/views/legacy.py), via a shallow
embedding of the relevant Python functions.

Conventions of the embedding:
  * Python values reachable by the default attribute-chain resolver are
    modelled by the inductive type `Val`: `pyNone` is Python's None and
    `obj` is any other object, carrying the runtime-introspection facts the
    resolver consults (isModel for isinstance(value, Model), isManager for
    isinstance(value, Manager), isCallable for callable(value), the presence
    and value of an alters_data attribute), its str()/six.text_type()
    rendering (strRep), its attribute dictionary (attrs), the set of
    attribute names whose descriptors raise ObjectDoesNotExist (raising,
    the missing-related-object case), and the value a zero-argument call
    returns (callResult, meaningful when isCallable).
  * Raw column declarations are modelled by `RawItem`: a string, None,
    a callable, or a tuple/list of items.
  * Fallible Python code is embedded as `Except PyExc`, with a constructor
    per exception class the embedded fragment can raise.
  * Machine-level details that the embedded code never branches on
    (Python 2 byte-string decoding guarded by six.PY2) are omitted, and the
    embedding fixes Python 3 semantics.
-/

namespace Datatableview

/-- Exception classes raised by the embedded fragment of legacy.py. -/
inductive PyExc where
  | attributeError : PyExc
  | objectDoesNotExist : PyExc
  | nameError (missingName : String) : PyExc
  | indexError : PyExc
  | typeError : PyExc
  | valueError (msg : String) : PyExc
deriving DecidableEq, Repr

/-- Runtime-introspection flags of a Python object, as consulted by
chain_lookup in _get_column_data_default. -/
structure PyFlags where
  isModel : Bool
  isManager : Bool
  isCallable : Bool
  hasAltersData : Bool
  altersData : Bool
deriving DecidableEq, Repr

/-- A Python value as seen by the default attribute-chain resolver. -/
inductive Val where
  | pyNone : Val
  | obj (flags : PyFlags) (strRep : String) (attrs : List (String × Val))
        (raising : List String) (callResult : Val) : Val

/-- Flags of a value; None has every introspection flag false. -/
def Val.flagsOf : Val → PyFlags
  | .pyNone => ⟨false, false, false, false, false⟩
  | .obj fl _ _ _ _ => fl

/-- six.text_type(value): the text rendering of a value (str(None) is "None"). -/
def text_type : Val → String
  | .pyNone => "None"
  | .obj _ s _ _ _ => s

/-- Result of calling a zero-argument callable value. -/
def Val.callResultOf : Val → Val
  | .pyNone => .pyNone
  | .obj _ _ _ _ r => r

/-- Whether a value is Python's None. -/
def Val.isNoneB : Val → Bool
  | .pyNone => true
  | _ => false

/-- An ordinary Python unicode string as a `Val`: no flags, text is itself. -/
def mkStr (s : String) : Val :=
  .obj ⟨false, false, false, false, false⟩ s [] [] .pyNone

/-- A raw column declaration or one of its components: a field-name string,
None, a callable object (identified by a tag), or a tuple/list. -/
inductive RawItem where
  | rNone : RawItem
  | rStr (s : String) : RawItem
  | rCallable (tag : String) : RawItem
  | rSeq (items : List RawItem) : RawItem

/-- FieldDefinitionTuple = namedtuple(..., ['pretty_name', 'fields', 'callback']). -/
structure FieldDefinitionTuple where
  pretty_name : RawItem
  fields : List RawItem
  callback : RawItem

/-- Whether an item is Python's None. -/
def isNoneRaw : RawItem → Bool
  | .rNone => true
  | _ => false

/-- Whether an item is a tuple or list (isinstance(x, (tuple, list))). -/
def RawItem.isSeqB : RawItem → Bool
  | .rSeq _ => true
  | _ => false

/-- tuple(name for name in field[1] if name is not None). -/
def filterNones (xs : List RawItem) : List RawItem :=
  xs.filter (fun x => !isNoneRaw x)

/-- The wrapping step applied both to the whole declaration and to its
source-fields element: a tuple/list is kept as its item list, anything else
becomes a one-element list. -/
def wrapSeq : RawItem → List RawItem
  | .rSeq xs => xs
  | x => [x]

/-- get_field_definition (legacy.py lines 56-76).  A non-sequence input is
wrapped into a one-element list; length 1 yields (None, input-as-list, None),
length 2 appends a None callback, length 3 is used as is, any other length
raises ValueError("Invalid field definition format.").  The source-fields
element is wrapped into a sequence if it is not one (in the length-1 case it
already is the wrapped list) and None entries are filtered out. -/
def get_field_definition (field_definition : RawItem) : Except PyExc FieldDefinitionTuple :=
  let fd := wrapSeq field_definition
  match fd with
  | [x] => .ok ⟨.rNone, filterNones [x], .rNone⟩
  | [a, b] => .ok ⟨a, filterNones (wrapSeq b), .rNone⟩
  | [a, b, c] => .ok ⟨a, filterNones (wrapSeq b), c⟩
  | _ => .error (.valueError "Invalid field definition format.")

/-- Core of re.sub(r"[\W_]+", "_", name) (legacy.py line 457), restricted to
ASCII text: the character class [\W_] matches exactly the non-alphanumeric
characters (underscore included), and re.sub rewrites each maximal run of
them to a single underscore.  Implemented as a left-to-right scan whose Bool
state records whether the previous character belonged to such a run, so that
every run emits exactly one underscore. -/
def mangleGo (prevNonAlnum : Bool) : List Char → List Char
  | [] => []
  | c :: rest =>
    if c.isAlphanum then c :: mangleGo false rest
    else if prevNonAlnum then mangleGo true rest
    else '_' :: mangleGo true rest

/-- mangled_name = re.sub(r"[\W_]+", "_", name). -/
def mangle (s : String) : String :=
  .mk (mangleGo false s.data)

/-- "get_column_%s_data" % mangled_name (legacy.py line 459). -/
def columnMethodName (name : String) : String :=
  "get_column_" ++ mangle name ++ "_data"

/-- "get_column_%d_data" % i (legacy.py line 463). -/
def indexMethodName (i : Nat) : String :=
  "get_column_" ++ toString i ++ "_data"

/-- Python truthiness of a raw item (empty strings and sequences are falsy). -/
def rawTruthy : RawItem → Bool
  | .rNone => false
  | .rStr s => !(s = "")
  | .rCallable _ => true
  | .rSeq xs => !xs.isEmpty

/-- force_text(x, errors="ignore"): error-tolerant text coercion.  A string
is returned unchanged; None coerces to the four-character string "None"
(six.text_type(None)); other objects coerce to their str() rendering, for
which the tag of a callable stands in (the repr of a sequence is a detail no
claim exercises, rendered here by a fixed marker). -/
def force_text : RawItem → String
  | .rNone => "None"
  | .rStr s => s
  | .rCallable tag => tag
  | .rSeq _ => "(sequence)"

/-- The resolver chosen by _get_resolver_method, identified symbolically:
the explicit callable override itself, a method found on the view by name,
or the default attribute-chain resolver. -/
inductive Resolver where
  | callbackCallable (tag : String) : Resolver
  | viewMethod (name : String) : Resolver
  | defaultResolver : Resolver
deriving DecidableEq, Repr

/-- The lookup name of lines 452-455: name = force_text(column.pretty_name,
errors="ignore"); if not name: name = column.fields[0].  An empty fields
tuple makes the fallback raise IndexError; a non-string fields[0] makes the
later re.sub raise TypeError (folded into the name computation here, since
no code runs in between). -/
def lookupNameE (column : FieldDefinitionTuple) : Except PyExc String :=
  let name := force_text column.pretty_name
  if name = "" then
    match column.fields with
    | [] => .error .indexError
    | f :: _ =>
      match f with
      | .rStr s => .ok s
      | _ => .error .typeError
  else .ok name

/-- The single value or (display, search) pair a custom resolver returns. -/
inductive PyRet where
  | single (v : Val) : PyRet
  | seq (xs : List Val) : PyRet

/-- A row-source object: its primary key (read as obj.pk by get_record_data)
and the value its attributes are resolved against. -/
structure RowObj where
  pk : Int
  val : Val

/-- The bound view instance: the set of method/attribute names defined on it,
and an oracle giving the value each custom resolver (method name or explicit
callable tag) returns when invoked with a row and the default_value keyword
argument.  The preload-hook arguments of _get_preloaded_data are user inputs
to those external methods and are folded into the oracle. -/
structure View where
  methods : List String
  impl : String → RowObj → Val → PyRet

/-- _get_resolver_method (legacy.py lines 423-467).  First-match-wins:
a truthy callback is used directly when callable, else looked up by name on
the view (getattr with no default, so a missing name raises AttributeError
and a non-string name raises TypeError); otherwise the mangled lookup-name
method, then the index-based method, then the default resolver.  The Bool
is the is_custom flag. -/
def get_resolver_method (view : View) (i : Nat) (column : FieldDefinitionTuple) :
    Except PyExc (Bool × Resolver) :=
  if rawTruthy column.callback then
    match column.callback with
    | .rCallable tag => .ok (true, .callbackCallable tag)
    | .rStr n =>
      if view.methods.contains n then .ok (true, .viewMethod n)
      else .error .attributeError
    | _ => .error .typeError
  else
    match lookupNameE column with
    | .error e => .error e
    | .ok name =>
      if view.methods.contains (columnMethodName name) then
        .ok (true, .viewMethod (columnMethodName name))
      else if view.methods.contains (indexMethodName i) then
        .ok (true, .viewMethod (indexMethodName i))
      else
        .ok (false, .defaultResolver)

/-- The names bound at module level in legacy.py (its imports, module
globals and top-level definitions, lines 1-54 and the later class/function
statements).  Name resolution inside chain_lookup falls back to this
namespace and then to the builtins; ObjectDoesNotExist is in neither. -/
def legacyModuleNames : List String :=
  ["json", "re", "logging", "namedtuple", "reduce", "Model", "Manager",
   "ListView", "MultipleObjectMixin", "HttpResponse", "flatatt",
   "render_to_string", "settings", "force_text",
   "python_2_unicode_compatible", "six", "DatatableMixin", "Datatable",
   "LegacyDatatable", "apply_options", "get_datatable_structure",
   "DatatableOptions", "OPTION_NAME_MAP", "DEFAULT_PAGE_LENGTH",
   "MINIMUM_PAGE_LENGTH", "log", "_javascript_boolean",
   "FieldDefinitionTuple", "ColumnOrderingTuple", "ColumnInfoTuple",
   "DEFAULT_OPTIONS", "get_field_definition", "ObjectListResult",
   "DatatableStructure", "LegacyDatatableMixin", "LegacyDatatableView",
   "LegacyConfigurationDatatableMixin", "LegacyConfigurationDatatableView"]

/-- getattr(obj, bit) with no default: None has no instance attributes, a
related-object descriptor listed in raising raises ObjectDoesNotExist, an
absent attribute raises AttributeError. -/
def getattrE : Val → String → Except PyExc Val
  | .pyNone, _ => .error .attributeError
  | .obj _ _ attrs raising _, bit =>
    if raising.contains bit then .error .objectDoesNotExist
    else
      match attrs.lookup bit with
      | some v => .ok v
      | none => .error .attributeError

/-- chain_lookup (legacy.py lines 472-483).  On a successful fetch, a
callable value that is not a Manager and not marked alters_data is invoked
and replaced by its result.  When the fetch raises, Python evaluates the
handler tuple (AttributeError, ObjectDoesNotExist) before matching; the
name ObjectDoesNotExist is not bound in legacy.py or the builtins, so that
evaluation raises NameError, which replaces the original exception instead
of absorbing it as None. -/
def chain_lookup (obj : Val) (bit : String) : Except PyExc Val :=
  match getattrE obj bit with
  | .ok value =>
    if (Val.flagsOf value).isCallable then
      if (Val.flagsOf value).isManager then .ok value
      else if !(Val.flagsOf value).hasAltersData
              || !(Val.flagsOf value).altersData then
        .ok (Val.callResultOf value)
      else .ok value
    else .ok value
  | .error _ =>
    if legacyModuleNames.contains "ObjectDoesNotExist" then .ok .pyNone
    else .error (.nameError "ObjectDoesNotExist")

/-- str.split("__"): split on each leftmost non-overlapping occurrence of
the two-character separator. -/
def splitPathGo (cur : List Char) : List Char → List (List Char)
  | [] => [cur.reverse]
  | '_' :: '_' :: rest => cur.reverse :: splitPathGo [] rest
  | c :: rest => splitPathGo (c :: cur) rest

/-- field_name.split("__") as a list of strings. -/
def splitPath (s : String) : List String :=
  (splitPathGo [] s.data).map (fun l => String.mk l)

/-- reduce(chain_lookup, [instance] + bits): left fold, an exception at any
step propagating. -/
def foldChain (v : Val) : List String → Except PyExc Val
  | [] => .ok v
  | b :: bs =>
    match chain_lookup v b with
    | .ok v2 => foldChain v2 bs
    | .error e => .error e

/-- value = reduce(chain_lookup, [instance] + field_name.split("__"))
(legacy.py line 487).  Calling .split on a non-string field raises
AttributeError. -/
def chainField (inst : Val) (field : RawItem) : Except PyExc Val :=
  match field with
  | .rStr s => foldChain inst (splitPath s)
  | _ => .error .attributeError

/-- if isinstance(value, Model): value = six.text_type(value) (line 489). -/
def modelToText (v : Val) : Val :=
  if (Val.flagsOf v).isModel then mkStr (text_type v) else v

/-- ' '.join semantics: a single space between consecutive items. -/
def joinWithSpace : List String → String
  | [] => ""
  | [s] => s
  | s :: rest => s ++ " " ++ joinWithSpace rest

/-- The loop of lines 485-493: one chain per source field in order, Model
instances rendered to text, None results skipped. -/
def collectValues (inst : Val) : List RawItem → Except PyExc (List Val)
  | [] => .ok []
  | f :: fs =>
    match chainField inst f with
    | .error e => .error e
    | .ok v =>
      match collectValues inst fs with
      | .error e => .error e
      | .ok vs =>
        .ok (if Val.isNoneB (modelToText v) then vs else modelToText v :: vs)

/-- _get_column_data_default (legacy.py lines 469-500): exactly one
collected value is used directly, otherwise the collected values are
stringified and joined with single spaces; the function returns the pair
(value, value). -/
def get_column_data_default (inst : Val) (column : FieldDefinitionTuple) :
    Except PyExc (Val × Val) :=
  match collectValues inst column.fields with
  | .error e => .error e
  | .ok values =>
    let value :=
      match values with
      | [v] => v
      | vs => mkStr (joinWithSpace (vs.map text_type))
    .ok (value, value)

/-- The per-field outcome of the loop of lines 486-489 before the None
filter: the chained lookup followed by the Model-to-text rendering.  A
specification-side regrouping of the same source lines, used to state what
one source field contributes. -/
def fieldValue (inst : Val) (f : RawItem) : Except PyExc Val :=
  match chainField inst f with
  | .ok v => .ok (modelToText v)
  | .error e => .error e

/-- re.sub(r"<[^>]+>", "", s) as a single scan.  The first argument buffers
the characters read since an unclosed opening angle bracket (in reverse):
when a closing bracket arrives the buffered nonempty tag body is discarded
with its delimiters; an empty body means the pattern did not match and both
delimiters are kept; at end of input an unclosed buffer is emitted as is
(no closing bracket remains, so no later match could use it). -/
def stripTagsGo : Option (List Char) → List Char → List Char
  | none, [] => []
  | none, c :: rest =>
    if c = '<' then stripTagsGo (some []) rest
    else c :: stripTagsGo none rest
  | some buf, [] => '<' :: buf.reverse
  | some buf, c :: rest =>
    if c = '>' then
      if buf.isEmpty then '<' :: '>' :: stripTagsGo none rest
      else stripTagsGo none rest
    else stripTagsGo (some (c :: buf)) rest

/-- re.sub(r"<[^>]+>", "", s) (legacy.py line 383). -/
def stripTags (s : String) : String :=
  .mk (stripTagsGo none s.data)

/-- Lines 377-383: a bare scalar is turned into the pair (value,
re.sub(r"<[^>]+>", "", six.text_type(value))); a tuple or list is returned
as is. -/
def pyRetToValues : PyRet → List Val
  | .single v => [v, mkStr (stripTags (text_type v))]
  | .seq xs => xs

/-- The tag under which the view oracle knows a custom resolver. -/
def resolverTag : Resolver → String
  | .callbackCallable t => t
  | .viewMethod n => n
  | .defaultResolver => ""

/-- get_column_data (legacy.py lines 361-385).  For a custom resolver the
default_value keyword is the search half of the default resolution, with
only AttributeError absorbed to None by the try of lines 367-370; for the
default resolver the (value, value) pair is returned as a 2-sequence. -/
def get_column_data (view : View) (i : Nat) (name : RawItem) (obj : RowObj) :
    Except PyExc (List Val) :=
  match get_field_definition name with
  | .error e => .error e
  | .ok column =>
    match get_resolver_method view i column with
    | .error e => .error e
    | .ok (is_custom, r) =>
      if is_custom then
        match get_column_data_default obj.val column with
        | .ok ds => .ok (pyRetToValues (view.impl (resolverTag r) obj ds.2))
        | .error .attributeError =>
          .ok (pyRetToValues (view.impl (resolverTag r) obj .pyNone))
        | .error e => .error e
      else
        match get_column_data_default obj.val column with
        | .ok ds => .ok [ds.1, ds.2]
        | .error e => .error e

/-- A JSON value, the shape of the serialized response. -/
inductive JVal where
  | jNull : JVal
  | jStr (s : String) : JVal
  | jInt (n : Int) : JVal
  | jArr (xs : List JVal) : JVal
  | jObj (kvs : List (String × JVal)) : JVal

/-- A list comprehension over fallible element computations: the first
exception propagates, otherwise the list of results in order. -/
def mapExcept {α β : Type} (f : α → Except PyExc β) : List α → Except PyExc (List β)
  | [] => .ok []
  | x :: xs =>
    match f x with
    | .error e => .error e
    | .ok y =>
      match mapExcept f xs with
      | .error e => .error e
      | .ok ys => .ok (y :: ys)

/-- One iteration of the loop of lines 354-358: data[str(i)] =
six.text_type(self.get_column_data(i, name, obj)[0]), where indexing an
empty sequence raises IndexError. -/
def record_cell (view : View) (obj : RowObj) (p : Nat × RawItem) :
    Except PyExc (String × JVal) :=
  match get_column_data view p.1 p.2 obj with
  | .error e => .error e
  | .ok values =>
    match values with
    | [] => .error .indexError
    | d :: _ => .ok (toString p.1, .jStr (text_type d))

/-- get_record_data (legacy.py lines 339-359): the row mapping starts from
DT_RowId = obj.pk and adds one stringified display value under each
stringified column index.  The string keys "0", "1", ... are pairwise
distinct and distinct from "DT_RowId", so the dict is the association list
in insertion order. -/
def get_record_data (view : View) (columns : List RawItem) (obj : RowObj) :
    Except PyExc (List (String × JVal)) :=
  match mapExcept (record_cell view obj) columns.enum with
  | .error e => .error e
  | .ok cells => .ok (("DT_RowId", .jInt obj.pk) :: cells)

/-- The per-request option values get_json_response_object and
paginate_object_list read.  Modelled from the spec for the parts produced
by the absent DatatableOptions code: "page_length of -1 means unpaged;
start_offset >= 0". -/
structure LegacyOptions where
  columns : List RawItem
  start_offset : Int
  page_length : Int

/-- Python slice-index normalization: a negative index counts from the end,
then the index is clamped to [0, len]. -/
def pyIndexClamp (n : Nat) (i : Int) : Nat :=
  let j : Int := if i < 0 then i + n else i
  if j < 0 then 0 else min j.toNat n

/-- object_list[b:e] with Python slice semantics. -/
def pySlice {α : Type} (l : List α) (b e : Int) : List α :=
  (l.take (pyIndexClamp l.length e)).drop (pyIndexClamp l.length b)

/-- paginate_object_list (legacy.py lines 314-328): when page_length is not
-1, the list is narrowed to [start_offset : start_offset + page_length]. -/
def paginate_object_list {α : Type} (options : LegacyOptions) (object_list : List α) :
    List α :=
  if options.page_length ≠ -1 then
    pySlice object_list options.start_offset
      (options.start_offset + options.page_length)
  else object_list

/-- request.GET.get("sEcho", None) serialized: null when absent. -/
def echoJson : Option String → JVal
  | none => .jNull
  | some s => .jStr s

/-- get_json_response_object (legacy.py lines 294-312): the echo token, the
two counts taken verbatim from the caller (get_ajax reads them off the
record collection), and one row record per element of the paginated page. -/
def get_json_response_object (view : View) (options : LegacyOptions)
    (sEcho : Option String) (object_list : List RowObj) (total filtered : Int) :
    Except PyExc JVal :=
  let page := paginate_object_list options object_list
  match mapExcept (get_record_data view options.columns) page with
  | .error e => .error e
  | .ok rows =>
    .ok (.jObj
      [("sEcho", echoJson sEcho),
       ("iTotalRecords", .jInt total),
       ("iTotalDisplayRecords", .jInt filtered),
       ("aaData", .jArr (rows.map .jObj))])

/-- The sort direction recorded by DatatableStructure. -/
inductive SortDirection where
  | asc : SortDirection
  | desc : SortDirection
deriving DecidableEq, Repr

/-- ColumnOrderingTuple = namedtuple(..., ['order', 'column_index', 'direction']). -/
structure ColumnOrderingTuple where
  order : Nat
  column_index : Int
  direction : SortDirection
deriving DecidableEq, Repr

/-- name.lstrip("-+"): drop every leading character in the set. -/
def lstripSigns (s : String) : String :=
  .mk (s.data.dropWhile (fun c => c = '-' || c = '+'))

/-- Python dict assignment on an association list: replace the value of an
existing key in place, else append. -/
def assocSet (m : List (String × ColumnOrderingTuple)) (k : String)
    (v : ColumnOrderingTuple) : List (String × ColumnOrderingTuple) :=
  match m with
  | [] => [(k, v)]
  | (k2, v2) :: rest =>
    if k2 = k then (k, v) :: rest else (k2, v2) :: assocSet rest k v

/-- The ordering options DatatableStructure.__init__ consumes.
get_column_index is Modelled from the spec: it belongs to the
DatatableOptions code absent from src/ and "resolves to a column index via
ordering_name lookup across all columns", returning -1 when the name is
unresolvable (the -1 convention is what line 102 tests). -/
structure StructOptions where
  ordering : List String
  get_column_index : String → Int

/-- The loop of DatatableStructure.__init__ (legacy.py lines 97-105):
for i, name in enumerate(options['ordering']), strip leading sign
characters, skip the entry when the lookup yields -1, else record
ColumnOrderingTuple(i, index, 'desc' if name[0] == '-' else 'asc') under
the plain name.  Indexing name[0] on an empty string raises IndexError. -/
def buildOrderingGo (getIdx : String → Int) :
    Nat → List (String × ColumnOrderingTuple) → List String →
    Except PyExc (List (String × ColumnOrderingTuple))
  | _, m, [] => .ok m
  | i, m, name :: rest =>
    let plain := lstripSigns name
    if getIdx plain = -1 then buildOrderingGo getIdx (i + 1) m rest
    else
      match name.data with
      | [] => .error .indexError
      | c :: _ =>
        buildOrderingGo getIdx (i + 1)
          (assocSet m plain
            ⟨i, getIdx plain, if c = '-' then .desc else .asc⟩) rest

/-- self.ordering as built at structure-object construction. -/
def structureOrdering (options : StructOptions) :
    Except PyExc (List (String × ColumnOrderingTuple)) :=
  buildOrderingGo options.get_column_index 0 [] options.ordering

/-- A row object with no attributes at all. -/
def bareObj : Val :=
  .obj ⟨false, false, false, false, false⟩ "row-without-attributes" [] [] .pyNone

/-- A row object whose attribute rel is a related-object descriptor raising
ObjectDoesNotExist. -/
def relMissingObj : Val :=
  .obj ⟨false, false, false, false, false⟩ "row" [] ["rel"] .pyNone

/-- A row object carrying two plain string attributes. -/
def twoFieldRow : Val :=
  .obj ⟨false, false, false, false, false⟩ "row"
    [("a", mkStr "x"), ("b", mkStr "y")] [] .pyNone

/-- A row object whose only attribute holds None. -/
def noneFieldRow : Val :=
  .obj ⟨false, false, false, false, false⟩ "row" [("a", .pyNone)] [] .pyNone

/-- A column-index lookup knowing only the column "name" at index 2. -/
def exampleGetIndex : String → Int :=
  fun s => if s = "name" then 2 else -1

/-- A view defining exactly one mangled-name resolver method. -/
def exampleView : View :=
  ⟨["get_column_Region_Subdivision_Type_data"], fun _ _ _ => .single .pyNone⟩

/-- A view with no custom methods at all. -/
def plainView : View :=
  ⟨[], fun _ _ _ => .single .pyNone⟩

/-- Options with three plain columns and an ordinary first page. -/
def exampleOptions : LegacyOptions :=
  ⟨[.rStr "a", .rStr "b", .rStr "c"], 0, 25⟩

/-- A first sample row for the response-assembly claims. -/
def exampleRow1 : RowObj :=
  ⟨1, .obj ⟨false, false, false, false, false⟩ "r1"
    [("a", mkStr "x1"), ("b", mkStr "y1"), ("c", mkStr "z1")] [] .pyNone⟩

/-- A second sample row for the response-assembly claims. -/
def exampleRow2 : RowObj :=
  ⟨2, .obj ⟨false, false, false, false, false⟩ "r2"
    [("a", mkStr "x2"), ("b", mkStr "y2"), ("c", mkStr "z2")] [] .pyNone⟩

/-- A successful mapExcept relates inputs and outputs pointwise. -/
theorem mapExcept_forall {α β : Type} (f : α → Except PyExc β) :
    ∀ (l : List α) (ys : List β), mapExcept f l = .ok ys →
      List.Forall₂ (fun a b => f a = .ok b) l ys := by
  intro l
  induction l with
  | nil =>
    intro ys h
    simp only [mapExcept] at h
    cases h
    exact List.Forall₂.nil
  | cons x xs ih =>
    intro ys h
    simp only [mapExcept] at h
    cases hx : f x with
    | error e => rw [hx] at h; cases h
    | ok y =>
      rw [hx] at h
      cases hm : mapExcept f xs with
      | error e => rw [hm] at h; cases h
      | ok ys2 =>
        rw [hm] at h
        cases h
        exact List.Forall₂.cons hx (ih ys2 hm)

/-- Each member of the right list of a Forall₂ has a related left member. -/
theorem forall₂_right_mem {α β : Type} {R : α → β → Prop} :
    ∀ {l1 : List α} {l2 : List β}, List.Forall₂ R l1 l2 →
      ∀ b ∈ l2, ∃ a ∈ l1, R a b := by
  intro l1 l2 h
  induction h with
  | nil => intro b hb; cases hb
  | @cons a b l1t l2t hR htail ih =>
    intro b2 hb2
    rcases List.mem_cons.mp hb2 with h1 | h2
    · subst h1
      exact ⟨a, List.mem_cons_self a l1t, hR⟩
    · obtain ⟨a2, ha2, hr2⟩ := ih b2 h2
      exact ⟨a2, List.mem_cons_of_mem a ha2, hr2⟩

/-- C1: the spec asserts that a missing attribute or missing related object
during default chain resolution is absorbed as None and never propagated.
The code plainly intends this (its handler names AttributeError and
ObjectDoesNotExist), but legacy.py never imports ObjectDoesNotExist, so the
moment either exception fires, evaluating the handler tuple raises NameError
out of the resolver instead.  This theorem exhibits both failing cases and
the absent import. -/
theorem c1_missing_attribute_escapes_resolver :
    "ObjectDoesNotExist" ∉ legacyModuleNames
    ∧ get_column_data_default bareObj ⟨.rNone, [.rStr "a"], .rNone⟩
        = .error (.nameError "ObjectDoesNotExist")
    ∧ get_column_data_default relMissingObj ⟨.rNone, [.rStr "rel"], .rNone⟩
        = .error (.nameError "ObjectDoesNotExist") :=
  ⟨by decide, rfl, rfl⟩

/-- C3: normalization maps a length-1 sequence to source fields only with
the display name absent, length 2 to (display_name, source_fields), length 3
to (display_name, source_fields, resolver_override), and any other length to
the configuration error; the source-fields element is wrapped into a
sequence when it is not one and None entries are filtered out. -/
theorem c3_field_definition_normalization (x a b c : RawItem) (xs : List RawItem)
    (hlen : xs.length = 0 ∨ 3 < xs.length) :
    get_field_definition (.rSeq [x]) = .ok ⟨.rNone, filterNones [x], .rNone⟩
    ∧ get_field_definition (.rSeq [a, b]) = .ok ⟨a, filterNones (wrapSeq b), .rNone⟩
    ∧ get_field_definition (.rSeq [a, b, c]) = .ok ⟨a, filterNones (wrapSeq b), c⟩
    ∧ get_field_definition (.rSeq xs)
        = .error (.valueError "Invalid field definition format.") := by
  refine ⟨rfl, rfl, rfl, ?_⟩
  rcases xs with _ | ⟨a1, _ | ⟨a2, _ | ⟨a3, _ | ⟨a4, rest⟩⟩⟩⟩
  · rfl
  · simp at hlen
  · simp at hlen
  · simp at hlen
  · rfl

/-- C3 witness: the three-element grouping from the spec example, and a
four-element input hitting the configuration error. -/
theorem c3_field_definition_normalization_witness :
    get_field_definition
        (.rSeq [.rStr "Pretty", .rSeq [.rStr "a", .rStr "b"], .rCallable "cb"])
      = .ok ⟨.rStr "Pretty", [.rStr "a", .rStr "b"], .rCallable "cb"⟩
    ∧ get_field_definition (.rSeq [.rStr "w", .rStr "x", .rStr "y", .rStr "z"])
      = .error (.valueError "Invalid field definition format.") := by
  have h := c3_field_definition_normalization (.rNone) (.rStr "Pretty")
    (.rSeq [.rStr "a", .rStr "b"]) (.rCallable "cb")
    [.rStr "w", .rStr "x", .rStr "y", .rStr "z"] (Or.inr (by decide))
  exact ⟨h.2.2.1, h.2.2.2⟩

/-- C10 counterexample: the claim says every non-tuple/non-list input is
wrapped as a single one-element source-field sequence, but the input None is
accepted and then filtered out, leaving an empty source-fields tuple. -/
theorem c10_none_input_counterexample :
    ∃ ft, get_field_definition RawItem.rNone = .ok ft ∧ ft.fields.length ≠ 1 :=
  ⟨⟨.rNone, [], .rNone⟩, rfl, by decide⟩

/-- C10 amended: the configuration error is raised exactly for tuple/list
declarations of length 0 or above 3; every non-tuple/non-list input is
accepted without error, a non-None one wrapped as the single one-element
source-field sequence, while a bare None input yields an empty tuple. -/
theorem c10_error_condition_amended (fd : RawItem) :
    ((∃ e, get_field_definition fd = .error e) ↔
      ∃ xs, fd = .rSeq xs ∧ (xs.length = 0 ∨ 3 < xs.length))
    ∧ (∀ x : RawItem, x.isSeqB = false → x ≠ .rNone →
        get_field_definition x = .ok ⟨.rNone, [x], .rNone⟩)
    ∧ get_field_definition .rNone = .ok ⟨.rNone, [], .rNone⟩ := by
  refine ⟨?_, ?_, rfl⟩
  · constructor
    · intro ⟨e, he⟩
      cases fd with
      | rNone => cases he
      | rStr s => cases he
      | rCallable t => cases he
      | rSeq xs =>
        refine ⟨xs, rfl, ?_⟩
        rcases xs with _ | ⟨a1, _ | ⟨a2, _ | ⟨a3, _ | ⟨a4, rest⟩⟩⟩⟩
        · left; rfl
        · cases he
        · cases he
        · cases he
        · right; simp only [List.length_cons]; omega
    · intro ⟨xs, hfd, hlen⟩
      subst hfd
      rcases xs with _ | ⟨a1, _ | ⟨a2, _ | ⟨a3, _ | ⟨a4, rest⟩⟩⟩⟩
      · exact ⟨.valueError "Invalid field definition format.", rfl⟩
      · simp at hlen
      · simp at hlen
      · simp at hlen
      · exact ⟨.valueError "Invalid field definition format.", rfl⟩
  · intro x hseq hnone
    have hn : isNoneRaw x = false := by
      cases x with
      | rNone => exact absurd rfl hnone
      | rStr s => rfl
      | rCallable t => rfl
      | rSeq xs => rfl
    cases x with
    | rNone => exact absurd rfl hnone
    | rStr s => simp [get_field_definition, wrapSeq, filterNones, List.filter, hn]
    | rCallable t => simp [get_field_definition, wrapSeq, filterNones, List.filter, hn]
    | rSeq xs => cases hseq

/-- C10 amended witness: a plain string declaration is accepted and wrapped
as the one-element source-field sequence. -/
theorem c10_error_condition_amended_witness :
    get_field_definition (.rStr "name") = .ok ⟨.rNone, [.rStr "name"], .rNone⟩ :=
  (c10_error_condition_amended .rNone).2.1 (.rStr "name") rfl
    (fun h => RawItem.noConfusion h)

/-- Taking up to a clamped bound is taking up to the bound. -/
theorem take_min_length {α : Type} (l : List α) (a : Nat) :
    l.take (min a l.length) = l.take a := by
  rcases Nat.le_total a l.length with h | h
  · rw [Nat.min_eq_left h]
  · rw [Nat.min_eq_right h, List.take_length, List.take_of_length_le h]

/-- Dropping up to a bound clamped by an upper bound of the length is
dropping up to the bound. -/
theorem drop_min_of_length_le {α : Type} (l : List α) (a n : Nat)
    (h : l.length ≤ n) : l.drop (min a n) = l.drop a := by
  rcases Nat.le_total a n with h2 | h2
  · rw [Nat.min_eq_left h2]
  · rw [Nat.min_eq_right h2, List.drop_eq_nil_of_le h,
      List.drop_eq_nil_of_le (le_trans h h2)]

/-- For non-negative bounds, the Python slice is take-then-drop. -/
theorem pySlice_nonneg {α : Type} (l : List α) (b e : Int)
    (hb : 0 ≤ b) (he : 0 ≤ e) :
    pySlice l b e = (l.take e.toNat).drop b.toNat := by
  have hb2 : ¬b < 0 := not_lt.mpr hb
  have he2 : ¬e < 0 := not_lt.mpr he
  simp only [pySlice, pyIndexClamp, if_neg hb2, if_neg he2]
  rw [take_min_length, drop_min_of_length_le _ _ _ (by
    rw [List.length_take]
    exact Nat.min_le_right _ _)]

/-- C6: with page_length -1 the collection is returned unsliced; with a
non-negative page_length (the only other values the DatatableOptions
invariant admits) the slicer keeps exactly the elements at positions
[start_offset, start_offset + page_length), in order. -/
theorem c6_pagination_slice {α : Type} (options : LegacyOptions) (l : List α)
    (hs : 0 ≤ options.start_offset) :
    (options.page_length = -1 → paginate_object_list options l = l)
    ∧ (0 ≤ options.page_length →
        paginate_object_list options l =
          (l.drop options.start_offset.toNat).take options.page_length.toNat) := by
  constructor
  · intro h
    simp [paginate_object_list, h]
  · intro hp
    have hne : options.page_length ≠ -1 := by omega
    rw [paginate_object_list, if_pos hne,
      pySlice_nonneg l _ _ hs (by omega)]
    have h1 : (options.start_offset + options.page_length).toNat
        = options.start_offset.toNat + options.page_length.toNat := by omega
    rw [h1, List.drop_take]
    have h2 : options.start_offset.toNat + options.page_length.toNat
        - options.start_offset.toNat = options.page_length.toNat := by omega
    rw [h2]

/-- C6 witness: page_length 25 and start_offset 50 on a 100-element
collection yield exactly elements 50 through 74, in order. -/
theorem c6_pagination_slice_witness :
    paginate_object_list ⟨[], 50, 25⟩ (List.range 100) = List.range' 50 25 := by
  have h := (c6_pagination_slice ⟨[], 50, 25⟩ (List.range 100) (by decide)).2 (by decide)
  rw [h]
  decide

/-- C8: one step of the ordering construction: the signed name has its
leading sign characters stripped, an unresolvable plain name (index -1) is
silently skipped, and a resolvable one records the tuple (sequence position,
column index, direction), the direction being desc exactly when the name's
leading character is the minus sign. -/
theorem c8_ordering_construction (getIdx : String → Int) (i : Nat)
    (m : List (String × ColumnOrderingTuple)) (name : String) (rest : List String) :
    buildOrderingGo getIdx i m [] = .ok m
    ∧ (getIdx (lstripSigns name) = -1 →
        buildOrderingGo getIdx i m (name :: rest)
          = buildOrderingGo getIdx (i + 1) m rest)
    ∧ (∀ c cs, name.data = c :: cs → getIdx (lstripSigns name) ≠ -1 →
        buildOrderingGo getIdx i m (name :: rest)
          = buildOrderingGo getIdx (i + 1)
              (assocSet m (lstripSigns name)
                ⟨i, getIdx (lstripSigns name),
                 if c = '-' then .desc else .asc⟩) rest) := by
  refine ⟨rfl, ?_, ?_⟩
  · intro h
    simp only [buildOrderingGo, h, if_pos]
  · intro c cs hdata h
    simp only [buildOrderingGo, if_neg h, hdata]

/-- C8 witness: the spec's example: ordering ["-name", "missing"] with
"name" at column index 2 records ("name", (0, 2, desc)), and the entry
naming a non-existent column is silently skipped. -/
theorem c8_ordering_construction_witness :
    structureOrdering ⟨["-name", "missing"], exampleGetIndex⟩
      = .ok [("name", ⟨0, 2, .desc⟩)] := by
  have h := (c8_ordering_construction exampleGetIndex 0 [] "-name" ["missing"]).2.2
    '-' ['n', 'a', 'm', 'e'] rfl (by decide)
  exact h.trans (by rfl)

/-- The collection loop of the default resolver keeps, in order, exactly
the non-None per-field outcomes. -/
theorem collectValues_eq_filter (inst : Val) :
    ∀ (fs : List RawItem) (ws : List Val),
      mapExcept (fieldValue inst) fs = .ok ws →
      collectValues inst fs = .ok (ws.filter (fun v => !v.isNoneB)) := by
  intro fs
  induction fs with
  | nil =>
    intro ws h
    simp only [mapExcept] at h
    cases h
    rfl
  | cons f fs ih =>
    intro ws h
    simp only [mapExcept] at h
    cases hcf : chainField inst f with
    | error e =>
      rw [show fieldValue inst f = .error e by rw [fieldValue, hcf]] at h
      cases h
    | ok v0 =>
      rw [show fieldValue inst f = .ok (modelToText v0) by rw [fieldValue, hcf]] at h
      cases hm : mapExcept (fieldValue inst) fs with
      | error e => rw [hm] at h; cases h
      | ok ws2 =>
        rw [hm] at h
        cases h
        simp only [collectValues, hcf, ih ws2 hm, List.filter_cons]
        cases hn : Val.isNoneB (modelToText v0) with
        | true => simp [hn]
        | false => simp [hn]

/-- C7: for columns the default attribute-chain resolver handles, one value
is collected per source field with None results skipped; exactly one
collected value is used directly as the display value, any other count is
stringified and joined with single spaces, and the search value always
equals the display value. -/
theorem c7_default_resolver_collection (inst : Val) (column : FieldDefinitionTuple)
    (ws : List Val) (h : mapExcept (fieldValue inst) column.fields = .ok ws) :
    (∀ v, ws.filter (fun w => !w.isNoneB) = [v] →
      get_column_data_default inst column = .ok (v, v))
    ∧ (∀ vs, ws.filter (fun w => !w.isNoneB) = vs → vs.length ≠ 1 →
      get_column_data_default inst column =
        .ok (mkStr (joinWithSpace (vs.map text_type)),
             mkStr (joinWithSpace (vs.map text_type))))
    ∧ (∀ p, get_column_data_default inst column = .ok p → p.1 = p.2) := by
  have hc := collectValues_eq_filter inst column.fields ws h
  refine ⟨?_, ?_, ?_⟩
  · intro v hv
    rw [get_column_data_default, hc, hv]
  · intro vs hvs hlen
    rw [get_column_data_default, hc, hvs]
    rcases vs with _ | ⟨v1, _ | ⟨v2, vrest⟩⟩
    · rfl
    · exact absurd rfl hlen
    · rfl
  · intro p hp
    rw [get_column_data_default] at hp
    cases hcv : collectValues inst column.fields with
    | error e => rw [hcv] at hp; cases hp
    | ok values => rw [hcv] at hp; cases hp; rfl

/-- C7 witness: two string-valued source fields are joined with a single
space and the search value equals the display value. -/
theorem c7_default_resolver_collection_witness :
    get_column_data_default twoFieldRow ⟨.rNone, [.rStr "a", .rStr "b"], .rNone⟩
      = .ok (mkStr "x y", mkStr "x y") := by
  have h := c7_default_resolver_collection twoFieldRow
    ⟨.rNone, [.rStr "a", .rStr "b"], .rNone⟩ [mkStr "x", mkStr "y"] rfl
  exact h.2.1 [mkStr "x", mkStr "y"] rfl (by decide)

/-- C9: when every source field of the column resolves to None, or the
column has no source fields, the default resolver returns the pair of empty
strings, the join of zero collected values. -/
theorem c9_all_none_yields_empty_strings (inst : Val) (column : FieldDefinitionTuple)
    (h : ∀ f, f ∈ column.fields → fieldValue inst f = .ok .pyNone) :
    get_column_data_default inst column = .ok (mkStr "", mkStr "") := by
  have hgen : ∀ fs : List RawItem,
      (∀ f, f ∈ fs → fieldValue inst f = .ok .pyNone) →
      collectValues inst fs = .ok [] := by
    intro fs
    induction fs with
    | nil => intro _; rfl
    | cons f fs ih =>
      intro hall
      have hf := hall f (List.mem_cons_self f fs)
      cases hcf : chainField inst f with
      | error e =>
        rw [fieldValue, hcf] at hf
        cases hf
      | ok v0 =>
        rw [fieldValue, hcf] at hf
        have hmt : modelToText v0 = .pyNone := Except.ok.inj hf
        simp only [collectValues, hcf,
          ih (fun g hg => hall g (List.mem_cons_of_mem f hg)), hmt]
        rfl
  rw [get_column_data_default, hgen column.fields h]
  rfl

/-- C9 witness: a single source field holding None yields ("", ""). -/
theorem c9_all_none_yields_empty_strings_witness :
    get_column_data_default noneFieldRow ⟨.rNone, [.rStr "a"], .rNone⟩
      = .ok (mkStr "", mkStr "") := by
  refine c9_all_none_yields_empty_strings noneFieldRow _ ?_
  intro f hf
  have hfa : f = .rStr "a" := by simpa using hf
  rw [hfa]
  rfl

/-- C2: the resolver is chosen first-match-wins: (1) an explicit
resolver_override, used directly when callable and otherwise looked up by
name on the view (the lookup failing with AttributeError when absent);
(2) the view method named after the mangled lookup name, which prefers the
coerced display name and falls back to the first source field when the
display name coerces to the empty string; (3) the view method named after
the column index; (4) the default attribute-chain resolver.  Tiers 1-3
report is_custom true, tier 4 reports is_custom false. -/
theorem c2_resolver_dispatch_order (view : View) (i : Nat)
    (column : FieldDefinitionTuple) :
    (∀ tag, column.callback = .rCallable tag →
      get_resolver_method view i column = .ok (true, .callbackCallable tag))
    ∧ (∀ n, column.callback = .rStr n → n ≠ "" →
        view.methods.contains n = true →
        get_resolver_method view i column = .ok (true, .viewMethod n))
    ∧ (∀ n, column.callback = .rStr n → n ≠ "" →
        view.methods.contains n = false →
        get_resolver_method view i column = .error .attributeError)
    ∧ (rawTruthy column.callback = false →
        ∀ nm, lookupNameE column = .ok nm →
        (view.methods.contains (columnMethodName nm) = true →
          get_resolver_method view i column
            = .ok (true, .viewMethod (columnMethodName nm)))
        ∧ (view.methods.contains (columnMethodName nm) = false →
            view.methods.contains (indexMethodName i) = true →
            get_resolver_method view i column
              = .ok (true, .viewMethod (indexMethodName i)))
        ∧ (view.methods.contains (columnMethodName nm) = false →
            view.methods.contains (indexMethodName i) = false →
            get_resolver_method view i column = .ok (false, .defaultResolver)))
    ∧ (∀ s, column.pretty_name = .rStr s → s ≠ "" → lookupNameE column = .ok s)
    ∧ (∀ f rest, force_text column.pretty_name = "" →
        column.fields = .rStr f :: rest → lookupNameE column = .ok f) := by
  refine ⟨?_, ?_, ?_, ?_, ?_, ?_⟩
  · intro tag hcb
    rw [get_resolver_method, hcb]
    rfl
  · intro n hcb hne hmem
    rw [get_resolver_method, hcb]
    have hm2 : n ∈ view.methods := by simpa using hmem
    simp [rawTruthy, hne, hm2]
  · intro n hcb hne hmem
    rw [get_resolver_method, hcb]
    have hm2 : n ∉ view.methods := by simpa using hmem
    simp [rawTruthy, hne, hm2]
  · intro ht nm hnm
    refine ⟨?_, ?_, ?_⟩
    · intro h1
      rw [get_resolver_method, if_neg (by rw [ht]; exact Bool.false_ne_true), hnm]
      have g1 : columnMethodName nm ∈ view.methods := by simpa using h1
      simp [g1]
    · intro h1 h2
      rw [get_resolver_method, if_neg (by rw [ht]; exact Bool.false_ne_true), hnm]
      have g1 : columnMethodName nm ∉ view.methods := by simpa using h1
      have g2 : indexMethodName i ∈ view.methods := by simpa using h2
      simp [g1, g2]
    · intro h1 h2
      rw [get_resolver_method, if_neg (by rw [ht]; exact Bool.false_ne_true), hnm]
      have g1 : columnMethodName nm ∉ view.methods := by simpa using h1
      have g2 : indexMethodName i ∉ view.methods := by simpa using h2
      simp [g1, g2]
  · intro s hp hs
    rw [lookupNameE, hp]
    simp only [force_text]
    rw [if_neg hs]
  · intro f rest hft hfl
    rw [lookupNameE, hft, hfl]
    rfl

/-- C2 witness: with no override, the mangled display name selects the
custom view method get_column_Region_Subdivision_Type_data. -/
theorem c2_resolver_dispatch_order_witness :
    get_resolver_method exampleView 0
      ⟨.rStr "Region: Subdivision Type", [.rStr "x"], .rNone⟩
      = .ok (true, .viewMethod "get_column_Region_Subdivision_Type_data") := by
  have h := (c2_resolver_dispatch_order exampleView 0
    ⟨.rStr "Region: Subdivision Type", [.rStr "x"], .rNone⟩).2.2.2.1
    rfl "Region: Subdivision Type" rfl
  exact h.1 rfl

/-- While inside a run, the scan drops the rest of the run. -/
theorem mangleGo_true_skip (r b : List Char)
    (hr : r.all (fun c => !c.isAlphanum) = true) :
    mangleGo true (r ++ b) = mangleGo true b := by
  induction r with
  | nil => rfl
  | cons c rest ih =>
    rw [List.all_cons, Bool.and_eq_true] at hr
    have hc : c.isAlphanum = false := by
      have := hr.1
      revert this
      cases c.isAlphanum <;> simp
    simp [mangleGo, hc, ih hr.2]

/-- At an alphanumeric character (or the end), the run state is over. -/
theorem mangleGo_true_of_head (b : List Char)
    (hb : b.head?.all Char.isAlphanum = true) :
    mangleGo true b = mangleGo false b := by
  cases b with
  | nil => rfl
  | cons c rest =>
    have hc : c.isAlphanum = true := by simpa [Option.all] using hb
    simp [mangleGo, hc]

/-- The last-character condition passes from a list to its tail. -/
theorem getLast_all_tail (c : Char) (a : List Char)
    (h : ((c :: a).getLast?.all Char.isAlphanum) = true) :
    a.getLast?.all Char.isAlphanum = true := by
  cases a with
  | nil => rfl
  | cons x xs =>
    rw [List.getLast?_cons_cons] at h
    exact h

/-- A list ending in an alphanumeric character cannot be the singleton of a
non-alphanumeric one. -/
theorem last_alnum_tail_ne_nil (c : Char) (a : List Char)
    (hca : c.isAlphanum = false)
    (h : ((c :: a).getLast?.all Char.isAlphanum) = true) : a ≠ [] := by
  intro he
  subst he
  rw [List.getLast?_singleton] at h
  simp [Option.all, hca] at h

/-- Core of the run-collapse property, proved simultaneously for the scan
in normal state and in inside-a-run state. -/
theorem mangleGo_run_core (r b : List Char) (hr : r ≠ [])
    (hrn : r.all (fun c => !c.isAlphanum) = true)
    (hb : b.head?.all Char.isAlphanum = true) :
    ∀ a : List Char,
      (a.getLast?.all Char.isAlphanum = true →
        mangleGo false (a ++ r ++ b) = mangleGo false a ++ '_' :: mangleGo false b)
      ∧ (a ≠ [] → a.getLast?.all Char.isAlphanum = true →
        mangleGo true (a ++ r ++ b) = mangleGo true a ++ '_' :: mangleGo false b) := by
  intro a
  induction a with
  | nil =>
    refine ⟨?_, fun hne _ => absurd rfl hne⟩
    intro _
    cases r with
    | nil => exact absurd rfl hr
    | cons c rrest =>
      rw [List.all_cons, Bool.and_eq_true] at hrn
      have hc : c.isAlphanum = false := by
        have := hrn.1
        revert this
        cases c.isAlphanum <;> simp
      simp only [List.nil_append, List.cons_append]
      rw [show mangleGo false (c :: (rrest ++ b)) = '_' :: mangleGo true (rrest ++ b)
        by simp [mangleGo, hc]]
      rw [mangleGo_true_skip rrest b hrn.2, mangleGo_true_of_head b hb]
      rfl
  | cons c a ih =>
    constructor
    · intro hlast
      have hta := getLast_all_tail c a hlast
      cases hca : c.isAlphanum with
      | true =>
        have hP := ih.1 hta
        rw [List.append_assoc] at hP
        simp [mangleGo, hca, hP]
      | false =>
        have hne : a ≠ [] := last_alnum_tail_ne_nil c a hca hlast
        have hQ := ih.2 hne hta
        rw [List.append_assoc] at hQ
        simp [mangleGo, hca, hQ]
    · intro _ hlast
      have hta := getLast_all_tail c a hlast
      cases hca : c.isAlphanum with
      | true =>
        have hP := ih.1 hta
        rw [List.append_assoc] at hP
        simp [mangleGo, hca, hP]
      | false =>
        have hne : a ≠ [] := last_alnum_tail_ne_nil c a hca hlast
        have hQ := ih.2 hne hta
        rw [List.append_assoc] at hQ
        simp [mangleGo, hca, hQ]

/-- Alphanumeric text passes through the mangling unchanged. -/
theorem mangleGo_alnum_id (l : List Char) (h : l.all Char.isAlphanum = true) :
    mangleGo false l = l := by
  induction l with
  | nil => rfl
  | cons c rest ih =>
    rw [List.all_cons, Bool.and_eq_true] at h
    simp [mangleGo, h.1, ih h.2]

/-- C4: the mangling replaces every maximal run of non-alphanumeric or
underscore characters (the regex class is exactly the non-alphanumeric
characters) by a single underscore while passing alphanumeric text through,
and in particular the display name "Region: Subdivision Type" yields the
method name get_column_Region_Subdivision_Type_data. -/
theorem c4_name_mangling (a r b : List Char)
    (ha : a.getLast?.all Char.isAlphanum = true)
    (hr : r ≠ [])
    (hrn : r.all (fun c => !c.isAlphanum) = true)
    (hb : b.head?.all Char.isAlphanum = true) :
    mangleGo false (a ++ r ++ b) = mangleGo false a ++ '_' :: mangleGo false b
    ∧ (∀ l : List Char, l.all Char.isAlphanum = true → mangleGo false l = l)
    ∧ columnMethodName "Region: Subdivision Type"
        = "get_column_Region_Subdivision_Type_data" :=
  ⟨(mangleGo_run_core r b hr hrn hb a).1 ha, mangleGo_alnum_id, rfl⟩

/-- C4 witness: a colon-space run between two words collapses to one
underscore. -/
theorem c4_name_mangling_witness :
    mangleGo false ("Region".data ++ ": ".data ++ "Subdivision".data)
      = mangleGo false "Region".data ++ '_' :: mangleGo false "Subdivision".data :=
  (c4_name_mangling "Region".data ": ".data "Subdivision".data
    (by decide) (by decide) (by decide) (by decide)).1

/-- A successfully computed cell is keyed by the stringified column index
and holds a stringified display value. -/
theorem record_cell_shape (view : View) (obj : RowObj) (p : Nat × RawItem)
    (cell : String × JVal) (h : record_cell view obj p = .ok cell) :
    ∃ s, cell = (toString p.1, JVal.jStr s) := by
  rw [record_cell] at h
  cases h1 : get_column_data view p.1 p.2 obj with
  | error e => rw [h1] at h; cases h
  | ok values =>
    rw [h1] at h
    cases values with
    | nil => cases h
    | cons d rest =>
      cases h
      exact ⟨text_type d, rfl⟩

/-- The cells of one assembled row are keyed by the stringified positions of
the enumerated columns, every value a string. -/
theorem cells_shape (view : View) (obj : RowObj) :
    ∀ (l : List (Nat × RawItem)) (cells : List (String × JVal)),
      List.Forall₂ (fun p c => record_cell view obj p = .ok c) l cells →
      cells.map Prod.fst = l.map (fun p => toString p.1)
      ∧ ∀ c ∈ cells, ∃ s, c.2 = JVal.jStr s := by
  intro l cells h
  induction h with
  | nil => exact ⟨rfl, fun c hc => absurd hc (List.not_mem_nil c)⟩
  | @cons p cell ltail ctail hpc htail ih =>
    obtain ⟨s, hs⟩ := record_cell_shape view obj p cell hpc
    refine ⟨?_, ?_⟩
    · simp [ih.1, hs]
    · intro c hc
      rcases List.mem_cons.mp hc with h1 | h2
      · subst h1
        exact ⟨s, by rw [hs]⟩
      · exact ih.2 c h2

/-- A successfully assembled row record is DT_RowId followed by one
string-valued cell per column index. -/
theorem get_record_data_shape (view : View) (cols : List RawItem) (obj : RowObj)
    (r : List (String × JVal)) (h : get_record_data view cols obj = .ok r) :
    ∃ cells, r = ("DT_RowId", JVal.jInt obj.pk) :: cells
      ∧ cells.map Prod.fst = (List.range cols.length).map toString
      ∧ ∀ c ∈ cells, ∃ s, c.2 = JVal.jStr s := by
  rw [get_record_data] at h
  cases hm : mapExcept (record_cell view obj) cols.enum with
  | error e => rw [hm] at h; cases h
  | ok cells =>
    rw [hm] at h
    cases h
    have hf := mapExcept_forall (record_cell view obj) cols.enum cells hm
    have hs := cells_shape view obj cols.enum cells hf
    refine ⟨cells, rfl, ?_, hs.2⟩
    rw [hs.1, show (fun p : Nat × RawItem => toString p.1)
      = (toString ∘ Prod.fst) from rfl, ← List.map_map, List.enum_map_fst]

/-- C5: a successful AJAX payload is the object with exactly the keys
sEcho, iTotalRecords, iTotalDisplayRecords and aaData; the echo token is
passed through unchanged (null when absent), the two counts are the supplied
counters verbatim whatever the pagination options, and every aaData entry is
keyed by DT_RowId followed by the stringified column indices in order, each
holding a stringified value. -/
theorem c5_response_payload_shape (view : View) (options : LegacyOptions)
    (sEcho : Option String) (object_list : List RowObj) (total filtered : Int)
    (payload : JVal)
    (h : get_json_response_object view options sEcho object_list total filtered
      = .ok payload) :
    ∃ rows : List (List (String × JVal)),
      payload = .jObj
        [("sEcho", echoJson sEcho),
         ("iTotalRecords", .jInt total),
         ("iTotalDisplayRecords", .jInt filtered),
         ("aaData", .jArr (rows.map .jObj))]
      ∧ rows.length = (paginate_object_list options object_list).length
      ∧ ∀ r ∈ rows, ∃ (pk : Int) (cells : List (String × JVal)),
          r = ("DT_RowId", JVal.jInt pk) :: cells
          ∧ cells.map Prod.fst = (List.range options.columns.length).map toString
          ∧ ∀ c ∈ cells, ∃ s, c.2 = JVal.jStr s := by
  rw [get_json_response_object] at h
  cases hm : mapExcept (get_record_data view options.columns)
      (paginate_object_list options object_list) with
  | error e => rw [hm] at h; cases h
  | ok rows =>
    rw [hm] at h
    cases h
    have hf := mapExcept_forall (get_record_data view options.columns)
      (paginate_object_list options object_list) rows hm
    refine ⟨rows, rfl, (List.Forall₂.length_eq hf).symm, ?_⟩
    intro r hr
    obtain ⟨obj, hobj, hrec⟩ := forall₂_right_mem hf r hr
    obtain ⟨cells, hc1, hc2, hc3⟩ :=
      get_record_data_shape view options.columns obj r hrec
    exact ⟨obj.pk, cells, hc1, hc2, hc3⟩

/-- C5 witness: three columns and two rows give two aaData objects with the
keys DT_RowId, "0", "1", "2", the echo token and both counters passed
through verbatim. -/
theorem c5_response_payload_shape_witness :
    ∃ rows : List (List (String × JVal)),
      (JVal.jObj
        [("sEcho", .jStr "echo7"),
         ("iTotalRecords", .jInt 100),
         ("iTotalDisplayRecords", .jInt 40),
         ("aaData", .jArr
           [.jObj [("DT_RowId", .jInt 1), ("0", .jStr "x1"),
                   ("1", .jStr "y1"), ("2", .jStr "z1")],
            .jObj [("DT_RowId", .jInt 2), ("0", .jStr "x2"),
                   ("1", .jStr "y2"), ("2", .jStr "z2")]])])
      = .jObj
        [("sEcho", echoJson (some "echo7")),
         ("iTotalRecords", .jInt 100),
         ("iTotalDisplayRecords", .jInt 40),
         ("aaData", .jArr (rows.map .jObj))]
      ∧ rows.length
          = (paginate_object_list exampleOptions [exampleRow1, exampleRow2]).length
      ∧ ∀ r ∈ rows, ∃ (pk : Int) (cells : List (String × JVal)),
          r = ("DT_RowId", JVal.jInt pk) :: cells
          ∧ cells.map Prod.fst
              = (List.range exampleOptions.columns.length).map toString
          ∧ ∀ c ∈ cells, ∃ s, c.2 = JVal.jStr s :=
  c5_response_payload_shape plainView exampleOptions (some "echo7")
    [exampleRow1, exampleRow2] 100 40 _ rfl

end Datatableview
